import Mathlib

/-!
# gmod-setshaders-module: the marshalling layer of `main.cpp`

A shallow embedding of the five script-callable functions of `source/main.cpp`
(`Material_SetShaderName`, `Material_SetShaderAndParams`, `ChangeShader`,
`GetAllMaterials`, `GetMaterialsByGroup`) and of the helper `ShouldSkipParameter`.

Engine objects are records of what their getters return; a script-callable function
maps the global material-system pointer and the Lua stack to the list of mutating
engine calls it made, in order, and to the way the call ended.
-/

namespace SetShaders

/-! ## C values -/

/-- A C `float`: an IEEE-754 binary32 value given by its sign bit, its biased
exponent and its fraction field. -/
structure CFloat where
  sign : Bool
  exponent : Fin 256
  fraction : Fin 8388608
deriving DecidableEq, Repr

/-- Infinities and NaNs have the biased exponent 255. -/
def CFloat.isFinite (f : CFloat) : Bool := decide (f.exponent.val < 255)

/-- The significand as an integer: the fraction, with the hidden bit for a
normal number. -/
def CFloat.significand (f : CFloat) : Nat :=
  if f.exponent.val = 0 then f.fraction.val else 8388608 + f.fraction.val

/-- The power of two the significand is scaled by, plus 149: the magnitude of a finite
`f` is `significand * 2 ^ (scale - 149)`. -/
def CFloat.scale (f : CFloat) : Nat :=
  if f.exponent.val = 0 then 0 else f.exponent.val - 1

/-- Round the quotient `n / d` to the nearest integer, ties to even. -/
def roundHalfEven (n d : Nat) : Nat :=
  let q := n / d
  let r := n % d
  if 2 * r > d ∨ (2 * r = d ∧ q % 2 = 1) then q + 1 else q

/-- The magnitude of a finite float times `10 ^ 6`, rounded to an integer: the digits
that `%f` prints at its default precision of six. -/
def CFloat.micros (f : CFloat) : Nat :=
  roundHalfEven (f.significand * 2 ^ f.scale * 1000000) (2 ^ 149)

/-- The six digits after the decimal point. -/
def sixDigits (n : Nat) : List Char :=
  (Nat.toDigits 10 (1000000 + n % 1000000)).drop 1

/-- Modelled from the spec: the C library is not part of the sources; this is the text
`printf` writes for a `float` argument under `%f` ("default floating-point text
formatting"): sign, integer part, a point and six decimals, correctly rounded. -/
def fmt_f (f : CFloat) : String :=
  (if f.sign then "-" else "") ++
    (if f.exponent.val = 255 then (if f.fraction.val = 0 then "inf" else "nan")
     else String.mk (Nat.toDigits 10 (f.micros / 1000000) ++ '.' :: sixDigits f.micros))

/-- Modelled from the spec: the C library is not part of the sources; `snprintf` into a
buffer of `size` bytes leaves the first `size - 1` bytes of the formatted text (all
of it when it fits), then a terminator. The texts formatted here are ASCII, one byte
a character. -/
def snprintf (size : Nat) (formatted : String) : String :=
  String.mk (formatted.data.take (size - 1))

/-- The text `"[%f %f %f]"` formats, before it is cut to the buffer. -/
def vecFormat (x y z : CFloat) : String :=
  "[" ++ fmt_f x ++ " " ++ fmt_f y ++ " " ++ fmt_f z ++ "]"

/-- A `VMatrix`: `m i j` is `mat.m[i][j]`. -/
abbrev VMatrix := Fin 4 → Fin 4 → CFloat

/-- The arguments of the matrix `snprintf`, in the order they are passed. -/
def matArgs (mat : VMatrix) : List CFloat :=
  [mat 0 0, mat 0 1, mat 0 2, mat 0 3,
   mat 1 0, mat 1 1, mat 1 2, mat 1 3,
   mat 2 0, mat 2 1, mat 2 2, mat 2 3,
   mat 3 0, mat 3 1, mat 3 2, mat 3 3]

/-- The text the sixteen-`%f` format string formats, before it is cut to the buffer. -/
def matFormat (mat : VMatrix) : String :=
  "[" ++ " ".intercalate ((matArgs mat).map fmt_f) ++ "]"

/-! ## Engine objects -/

/-- An `ITexture`, by what `GetName()` returns. -/
structure ITexture where
  GetName : String
deriving DecidableEq, Repr

/-- The material a material-valued parameter refers to, by what `GetName()` returns. -/
structure MaterialRef where
  GetName : String
deriving DecidableEq, Repr

/-- The enumeration `MaterialVarType_t`, as the `switch` of `Material_SetShaderName`
lists it. -/
inductive MaterialVarType
  | MATERIAL_VAR_TYPE_FLOAT
  | MATERIAL_VAR_TYPE_INT
  | MATERIAL_VAR_TYPE_STRING
  | MATERIAL_VAR_TYPE_VECTOR
  | MATERIAL_VAR_TYPE_TEXTURE
  | MATERIAL_VAR_TYPE_MATERIAL
  | MATERIAL_VAR_TYPE_MATRIX
  | MATERIAL_VAR_TYPE_FOURCC
  | MATERIAL_VAR_TYPE_UNDEFINED
deriving DecidableEq, Repr

/-- The typed value of a material parameter: for each kind, what the getter that
`Material_SetShaderName` calls for that kind returns (`GetFloatValue`, `GetIntValue`,
`GetStringValue`, `GetVecValue` read at 0, 1, 2, `GetTextureValue`, `GetMaterialValue`,
`GetMatrixValue`, and `GetIntValue` again for a four-character code). A null texture or
material pointer is `none`. -/
inductive MaterialVarValue
  | float (v : CFloat)
  | int (v : Int)
  | string (v : String)
  | vector (x y z : CFloat)
  | texture (pTexture : Option ITexture)
  | material (pMat : Option MaterialRef)
  | matrix (mat : VMatrix)
  | fourcc (intValue : Int)
  | undefined
deriving DecidableEq

/-- An `IMaterialVar`. -/
structure IMaterialVar where
  GetName : String
  value : MaterialVarValue
deriving DecidableEq

/-- What `GetType()` returns. -/
def IMaterialVar.GetType (v : IMaterialVar) : MaterialVarType :=
  match v.value with
  | .float _ => .MATERIAL_VAR_TYPE_FLOAT
  | .int _ => .MATERIAL_VAR_TYPE_INT
  | .string _ => .MATERIAL_VAR_TYPE_STRING
  | .vector _ _ _ => .MATERIAL_VAR_TYPE_VECTOR
  | .texture _ => .MATERIAL_VAR_TYPE_TEXTURE
  | .material _ => .MATERIAL_VAR_TYPE_MATERIAL
  | .matrix _ => .MATERIAL_VAR_TYPE_MATRIX
  | .fourcc _ => .MATERIAL_VAR_TYPE_FOURCC
  | .undefined => .MATERIAL_VAR_TYPE_UNDEFINED

/-- An `IMaterial`: what its getters return. `GetName` is `none` for a null pointer;
`params` is the array `GetShaderParams()` of length `ShaderParamCount()`, a null slot
being `none`; `shader` is the name of the shader the material is bound to. -/
structure IMaterial where
  GetName : Option String
  IsErrorMaterial : Bool
  GetTextureGroupName : String
  shader : String
  params : List (Option IMaterialVar)
deriving DecidableEq

/-! ## Shader descriptors -/

/-- A value stored in a `KeyValues` entry. -/
inductive KVValue
  | float (v : CFloat)
  | int (v : Int)
  | string (v : String)
deriving DecidableEq, Repr

/-- Modelled from the spec: `tier1/KeyValues.h` is not part of the sources; a shader
descriptor is "a name plus a mapping of parameter name to value". The entries are kept
in the order their keys were first set. -/
structure KeyValues where
  name : String
  entries : List (String × KVValue)
deriving DecidableEq, Repr

/-- The descriptor `new KeyValues(name)` creates. -/
def KeyValues.new (name : String) : KeyValues := ⟨name, []⟩

/-- Put `v` under `key` in an entry list: an entry with that key gets the new value
in place, otherwise a new entry is added at the end. -/
def setEntry (key : String) (v : KVValue) : List (String × KVValue) → List (String × KVValue)
  | [] => [(key, v)]
  | (k, w) :: rest => if k = key then (k, v) :: rest else (k, w) :: setEntry key v rest

/-- The method `SetName`. -/
def KeyValues.SetName (kv : KeyValues) (name : String) : KeyValues := ⟨name, kv.entries⟩

/-- The method `SetFloat`. -/
def KeyValues.SetFloat (kv : KeyValues) (key : String) (v : CFloat) : KeyValues :=
  ⟨kv.name, setEntry key (.float v) kv.entries⟩

/-- The method `SetInt`. -/
def KeyValues.SetInt (kv : KeyValues) (key : String) (v : Int) : KeyValues :=
  ⟨kv.name, setEntry key (.int v) kv.entries⟩

/-- The method `SetString`. -/
def KeyValues.SetString (kv : KeyValues) (key : String) (v : String) : KeyValues :=
  ⟨kv.name, setEntry key (.string v) kv.entries⟩

/-! ## `ShouldSkipParameter` and the copy loop of `Material_SetShaderName` -/

/-- The helper `ShouldSkipParameter`: `strcmp(a, b) == 0` is equality of the two
strings. -/
def ShouldSkipParameter (paramName : String) : Bool :=
  if paramName = "$flags" then true
  else if paramName = "$flags_defined" then true
  else if paramName = "$flags2" then true
  else if paramName = "$flags_defined2" then true
  else if paramName = "$envmap" then true
  else false

/-- One pass through the body of the `for` loop of `Material_SetShaderName`, for the
slot `pParams[i]`. -/
def copyParam (pOriginalKV : KeyValues) (slot : Option IMaterialVar) : KeyValues :=
  match slot with
  | none => pOriginalKV
  | some pVar =>
    let paramName := pVar.GetName
    if ShouldSkipParameter paramName then pOriginalKV
    else
      match pVar.value with
      | .float v => pOriginalKV.SetFloat paramName v
      | .int v => pOriginalKV.SetInt paramName v
      | .string v => pOriginalKV.SetString paramName v
      | .vector x y z => pOriginalKV.SetString paramName (snprintf 64 (vecFormat x y z))
      | .texture pTexture =>
        match pTexture with
        | some t => pOriginalKV.SetString paramName t.GetName
        | none => pOriginalKV
      | .material pMat =>
        match pMat with
        | some m => pOriginalKV.SetString paramName m.GetName
        | none => pOriginalKV
      | .matrix mat => pOriginalKV.SetString paramName (snprintf 256 (matFormat mat))
      | .fourcc v => pOriginalKV.SetInt paramName v
      | .undefined => pOriginalKV

/-- The whole `for` loop: `i` runs over the slots `0 .. paramCount - 1` in order. -/
def copyParams (pOriginalKV : KeyValues) (pParams : List (Option IMaterialVar)) : KeyValues :=
  pParams.foldl copyParam pOriginalKV

/-- The material system: `GetNumMaterials()`, `GetMaterial(i)` and
`FindMaterial(name, textureGroup)`; a null result is `none`. -/
structure IMaterialSystem where
  GetNumMaterials : Int
  GetMaterial : Int → Option IMaterial
  FindMaterial : String → String → Option IMaterial

/-- Modelled from the spec: the engine header that defines this constant is not part of
the sources; it is the texture group `ChangeShader` passes to `FindMaterial`. -/
def TEXTURE_GROUP_OTHER : String := "Other textures"

/-! ## The scripting runtime -/

/-- A Lua number, a C `double`; a finite value is held exactly. -/
inductive LuaNumber
  | finite (q : ℚ)
  | negZero
  | inf (negative : Bool)
  | nan
deriving DecidableEq

/-- The `double` an `int` converts to, as in `PushNumber(tableIndex)`. -/
def LuaNumber.ofInt (i : Int) : LuaNumber := .finite i

/-- Equality of two numbers as table keys. -/
def LuaNumber.keyEq : LuaNumber → LuaNumber → Bool
  | .finite p, .finite q => decide (p = q)
  | .finite p, .negZero => decide (p = 0)
  | .negZero, .finite q => decide (q = 0)
  | .negZero, .negZero => true
  | .inf a, .inf b => a == b
  | _, _ => false

/-- The type ids of `GarrysMod::Lua::Type` that the module names (`Type::None` is the
type of an empty stack position); every other id is `OTHER`. -/
inductive LuaType
  | NONE
  | NIL
  | BOOL
  | NUMBER
  | STRING
  | TABLE
  | MATERIAL
  | OTHER (id : Nat)
deriving DecidableEq, Repr

/-- A Lua value. A table is the sequence of its key and value pairs in the order
`Next` visits them; a Material userdata is the `IMaterial` pointer it holds, `none`
when null; a value of any other type is known by its type id alone. -/
inductive LuaValue
  | nil
  | bool (b : Bool)
  | number (n : LuaNumber)
  | string (s : String)
  | table (entries : List (LuaValue × LuaValue))
  | material (pMaterial : Option IMaterial)
  | other (id : Nat)

/-- The type id of a value. -/
def LuaValue.type : LuaValue → LuaType
  | .nil => .NIL
  | .bool _ => .BOOL
  | .number _ => .NUMBER
  | .string _ => .STRING
  | .table _ => .TABLE
  | .material _ => .MATERIAL
  | .other id => .OTHER id

/-- Equality of two values as table keys, for the scalar types; tables and userdata are
keys by reference, which a value does not record, and count as different. -/
def LuaValue.keyEq : LuaValue → LuaValue → Bool
  | .nil, .nil => true
  | .bool a, .bool b => a == b
  | .number a, .number b => a.keyEq b
  | .string a, .string b => a == b
  | _, _ => false

/-- Modelled from the spec: the C library and the Lua runtime are not part of the
sources; these are the two numeric conversions the module relies on: the text the
runtime gives a number when `GetString` is asked for one, and the C cast `(float)`. -/
structure NumericConversions where
  lua_number2str : LuaNumber → String
  toFloat : LuaNumber → CFloat

/-- The value at a stack position: `1` is the first argument, `-1` the top. -/
def slot (stack : List LuaValue) (iStackPos : Int) : Option LuaValue :=
  if 0 < iStackPos then stack.get? (iStackPos.toNat - 1)
  else if iStackPos < 0 ∧ (-iStackPos).toNat ≤ stack.length then
    stack.get? (stack.length - (-iStackPos).toNat)
  else none

/-- The method `GetType`. -/
def GetType (stack : List LuaValue) (iStackPos : Int) : LuaType :=
  match slot stack iStackPos with
  | some v => v.type
  | none => .NONE

/-- The method `IsType`. -/
def IsType (stack : List LuaValue) (iStackPos : Int) (iType : LuaType) : Bool :=
  decide (GetType stack iStackPos = iType)

/-- The method `GetString`: the string at the position, the text of a number, and a null
pointer (`none`) for every other value. -/
def GetString (rt : NumericConversions) (stack : List LuaValue) (iStackPos : Int) :
    Option String :=
  match slot stack iStackPos with
  | some (.string s) => some s
  | some (.number n) => some (rt.lua_number2str n)
  | _ => none

/-- The method `GetNumber`; zero for a value that is not a number. -/
def GetNumber (stack : List LuaValue) (iStackPos : Int) : LuaNumber :=
  match slot stack iStackPos with
  | some (.number n) => n
  | _ => .finite 0

/-- The method `GetBool`: false for `nil` and `false` only. -/
def GetBool (stack : List LuaValue) (iStackPos : Int) : Bool :=
  match slot stack iStackPos with
  | some (.bool b) => b
  | some .nil => false
  | none => false
  | _ => true

/-- The call `GetUserType<IMaterial>(iStackPos, Type::Material)`: the pointer a Material
userdata holds, null for any other value. -/
def GetUserType_IMaterial (stack : List LuaValue) (iStackPos : Int) : Option IMaterial :=
  match slot stack iStackPos with
  | some (.material p) => p
  | _ => none

/-- The method `Push`: a copy of the value at the position goes on top. -/
def Push (stack : List LuaValue) (iStackPos : Int) : List LuaValue :=
  match slot stack iStackPos with
  | some v => stack ++ [v]
  | none => stack ++ [.nil]

/-- The value of a table under a string key, `nil` when there is none. -/
def rawField (entries : List (LuaValue × LuaValue)) (strName : String) : LuaValue :=
  match entries.find? (fun e => e.1.keyEq (.string strName)) with
  | some e => e.2
  | none => .nil

/-- The method `GetField`: the value under the key goes on top (metatables left aside). -/
def GetField (stack : List LuaValue) (iStackPos : Int) (strName : String) : List LuaValue :=
  match slot stack iStackPos with
  | some (.table entries) => stack ++ [rawField entries strName]
  | _ => stack ++ [.nil]

/-- The method `SetTable` on the entries of a table, for a key and a value that are not
`nil`: the value replaces the one under an equal key, otherwise the pair is added. -/
def setTable (key value : LuaValue) :
    List (LuaValue × LuaValue) → List (LuaValue × LuaValue)
  | [] => [(key, value)]
  | (k, w) :: rest =>
    if k.keyEq key then (k, value) :: rest else (k, w) :: setTable key value rest

/-- An error raised into the script: by `ThrowError` with its message, or by `CheckType`
for the argument position and the type it wanted. -/
inductive LuaError
  | ThrowError (message : String)
  | TypeError (iStackPos : Int) (expected : LuaType)
deriving DecidableEq, Repr

/-- How a call ends: it returns values to the script, it raises an error, or it runs
into behaviour C leaves undefined (a null pointer given to `strcmp` or to a
constructor). -/
inductive Result
  | returned (values : List LuaValue)
  | raised (e : LuaError)
  | undefined

/-- A mutating call on an engine material. The material is named by its state when the
script-callable function was entered. -/
inductive EngineCall
  | SetShader (pMaterial : IMaterial) (shaderName : String)
  | SetShaderAndParams (pMaterial : IMaterial) (pKeyValues : KeyValues)
  | Refresh (pMaterial : IMaterial)
deriving DecidableEq

/-- What a script-callable function did: the mutating engine calls in the order they
were made, and how the call ended. -/
structure Outcome where
  calls : List EngineCall
  result : Result

/-- The outcome of `ThrowError("Material system not initialized!")` before any call. -/
def notInitialized : Outcome :=
  ⟨[], .raised (.ThrowError "Material system not initialized!")⟩

/-! ## The script-callable functions -/

/-- The function `Material_SetShaderName` (`Material:SetShaderName(shaderName)`). -/
def Material_SetShaderName (rt : NumericConversions)
    (g_pMaterialSystem : Option IMaterialSystem) (stack : List LuaValue) : Outcome :=
  match g_pMaterialSystem with
  | none => notInitialized
  | some _ =>
    if GetType stack 1 ≠ .MATERIAL then ⟨[], .raised (.TypeError 1 .MATERIAL)⟩
    else if GetType stack 2 ≠ .STRING then ⟨[], .raised (.TypeError 2 .STRING)⟩
    else
      match GetUserType_IMaterial stack 1 with
      | none => ⟨[], .raised (.ThrowError "Invalid material!")⟩
      | some pMaterial =>
        match GetString rt stack 2 with
        | none => ⟨[], .undefined⟩
        | some shaderName =>
          let pOriginalKV := copyParams (KeyValues.new shaderName) pMaterial.params
          ⟨[.SetShaderAndParams pMaterial pOriginalKV, .Refresh pMaterial], .returned []⟩

/-- One pass through the body of the `while (LUA->Next(2))` loop of
`Material_SetShaderAndParams`: `stack` is the stack as `Next` left it, the key below
the value on top. The result is `none` when `strcmp` is given a null key. -/
def tableStep (rt : NumericConversions) (stack : List LuaValue) (pKeyValues : KeyValues) :
    Option KeyValues :=
  let stack1 := Push stack (-2)
  match GetString rt stack1 (-1) with
  | none => none
  | some key =>
    if key ≠ "shader" then
      match GetType stack1 (-2) with
      | .STRING =>
        match GetString rt stack1 (-2) with
        | some v => some (pKeyValues.SetString key v)
        | none => none
      | .NUMBER => some (pKeyValues.SetFloat key (rt.toFloat (GetNumber stack1 (-2))))
      | .BOOL => some (pKeyValues.SetInt key (if GetBool stack1 (-2) then 1 else 0))
      | _ => some pKeyValues
    else some pKeyValues

/-- The `while (LUA->Next(2))` loop over the entries `Next` has still to visit; `stack`
is the stack without the key and value that `Next` pushes. -/
def tableLoop (rt : NumericConversions) (stack : List LuaValue) :
    List (LuaValue × LuaValue) → KeyValues → Option KeyValues
  | [], pKeyValues => some pKeyValues
  | (k, v) :: rest, pKeyValues =>
    match tableStep rt (stack ++ [k, v]) pKeyValues with
    | none => none
    | some kv => tableLoop rt stack rest kv

/-- The descriptor `Material_SetShaderAndParams` builds from the stack, from
`new KeyValues("shader")` to the end of the loop. -/
def buildKeyValues (rt : NumericConversions) (stack : List LuaValue) : Option KeyValues :=
  let pKeyValues := KeyValues.new "shader"
  let stack1 := GetField stack 2 "shader"
  let pKeyValues1 :=
    if IsType stack1 (-1) .STRING then
      match GetString rt stack1 (-1) with
      | some shaderName => pKeyValues.SetName shaderName
      | none => pKeyValues
    else pKeyValues
  match slot stack 2 with
  | some (.table entries) => tableLoop rt stack entries pKeyValues1
  | _ => some pKeyValues1

/-- The function `Material_SetShaderAndParams`
(`Material:SetShaderAndParams(keyvaluesTable)`). -/
def Material_SetShaderAndParams (rt : NumericConversions)
    (g_pMaterialSystem : Option IMaterialSystem) (stack : List LuaValue) : Outcome :=
  match g_pMaterialSystem with
  | none => notInitialized
  | some _ =>
    if GetType stack 1 ≠ .MATERIAL then ⟨[], .raised (.TypeError 1 .MATERIAL)⟩
    else if GetType stack 2 ≠ .TABLE then ⟨[], .raised (.TypeError 2 .TABLE)⟩
    else
      match GetUserType_IMaterial stack 1 with
      | none => ⟨[], .raised (.ThrowError "Invalid material!")⟩
      | some pMaterial =>
        match buildKeyValues rt stack with
        | none => ⟨[], .undefined⟩
        | some pKeyValues =>
          ⟨[.SetShaderAndParams pMaterial pKeyValues, .Refresh pMaterial], .returned []⟩

/-- The function `ChangeShader` (`ChangeShader(materialName, shaderName)`). -/
def ChangeShader (rt : NumericConversions)
    (g_pMaterialSystem : Option IMaterialSystem) (stack : List LuaValue) : Outcome :=
  match g_pMaterialSystem with
  | none => notInitialized
  | some ms =>
    if GetType stack 1 ≠ .STRING then ⟨[], .raised (.TypeError 1 .STRING)⟩
    else if GetType stack 2 ≠ .STRING then ⟨[], .raised (.TypeError 2 .STRING)⟩
    else
      match GetString rt stack 1, GetString rt stack 2 with
      | some materialName, some shaderName =>
        match ms.FindMaterial materialName TEXTURE_GROUP_OTHER with
        | none => ⟨[], .returned [.bool false]⟩
        | some pMaterial =>
          if pMaterial.IsErrorMaterial then ⟨[], .returned [.bool false]⟩
          else ⟨[.SetShader pMaterial shaderName, .Refresh pMaterial], .returned [.bool true]⟩
      | _, _ => ⟨[], .undefined⟩

/-- The state of the two enumeration loops: the entries of the table being built and
the local `tableIndex`. -/
structure EnumState where
  table : List (LuaValue × LuaValue)
  tableIndex : Int

/-- The three calls `PushNumber(tableIndex); PushString(materialName); SetTable(-3)`
followed by `tableIndex++`. -/
def EnumState.add (st : EnumState) (materialName : String) : EnumState :=
  ⟨setTable (.number (LuaNumber.ofInt st.tableIndex)) (.string materialName) st.table,
   st.tableIndex + 1⟩

/-- One pass through the body of the `for` loop of `GetAllMaterials`, at index `i`.
A C string is empty exactly when its first byte is the terminator. -/
def allMaterialsStep (ms : IMaterialSystem) (st : EnumState) (i : Nat) : EnumState :=
  match ms.GetMaterial i with
  | none => st
  | some pMaterial =>
    if pMaterial.IsErrorMaterial then st
    else
      match pMaterial.GetName with
      | none => st
      | some materialName => if materialName = "" then st else st.add materialName

/-- The function `GetAllMaterials`; the `for` loop runs `i` from `0` while
`i < materialCount`. -/
def GetAllMaterials (g_pMaterialSystem : Option IMaterialSystem) (_stack : List LuaValue) :
    Outcome :=
  match g_pMaterialSystem with
  | none => notInitialized
  | some ms =>
    let materialCount := ms.GetNumMaterials
    let st := (List.range materialCount.toNat).foldl (allMaterialsStep ms) ⟨[], 1⟩
    ⟨[], .returned [.table st.table]⟩

/-- One pass through the body of the `for` loop of `GetMaterialsByGroup`, at index `i`. -/
def byGroupStep (ms : IMaterialSystem) (groupFilter : String) (st : EnumState) (i : Nat) :
    EnumState :=
  match ms.GetMaterial i with
  | none => st
  | some pMaterial =>
    if pMaterial.IsErrorMaterial then st
    else
      match pMaterial.GetName with
      | none => st
      | some materialName =>
        if materialName = "" then st
        else
          let texGroup := pMaterial.GetTextureGroupName
          if texGroup = groupFilter then st.add materialName else st

/-- The function `GetMaterialsByGroup` (`GetMaterialsByGroup(groupName)`). -/
def GetMaterialsByGroup (rt : NumericConversions)
    (g_pMaterialSystem : Option IMaterialSystem) (stack : List LuaValue) : Outcome :=
  match g_pMaterialSystem with
  | none => notInitialized
  | some ms =>
    if GetType stack 1 ≠ .STRING then ⟨[], .raised (.TypeError 1 .STRING)⟩
    else
      match GetString rt stack 1 with
      | none => ⟨[], .undefined⟩
      | some groupFilter =>
        let materialCount := ms.GetNumMaterials
        let st := (List.range materialCount.toNat).foldl (byGroupStep ms groupFilter) ⟨[], 1⟩
        ⟨[], .returned [.table st.table]⟩

/-! ## The numeric conversions of a C99 platform

The functions above take the two conversions as a parameter; the ones below are those of
a platform that follows C99 with IEEE-754 arithmetic, used where a concrete run needs
them. -/

/-- Whether `n / d ≥ 2 ^ k`. -/
def geTwoPow (n d : Nat) (k : Int) : Bool :=
  if 0 ≤ k then decide (d * 2 ^ k.toNat ≤ n) else decide (d ≤ n * 2 ^ (-k).toNat)

/-- The integer `e` with `2 ^ e ≤ n / d < 2 ^ (e + 1)`, for positive `n` and `d`. -/
def floorLog2 (n d : Nat) : Int :=
  let l : Int := ((Nat.toDigits 2 n).length : Int) - ((Nat.toDigits 2 d).length : Int)
  if geTwoPow n d l then l else l - 1

/-- The quotient `n / (d * 2 ^ k)` rounded to the nearest integer, ties to even. -/
def roundScaled (n d : Nat) (k : Int) : Nat :=
  if 0 ≤ k then roundHalfEven n (d * 2 ^ k.toNat) else roundHalfEven (n * 2 ^ (-k).toNat) d

/-- The binary32 value nearest to `± n / d` (ties to even), infinite on overflow. -/
def roundToFloat (sign : Bool) (n d : Nat) : CFloat :=
  if n = 0 then ⟨sign, 0, 0⟩
  else
    let e := floorLog2 n d
    if e < -126 then
      let m := roundScaled n d (-149)
      if m < 8388608 then ⟨sign, 0, Fin.ofNat m⟩ else ⟨sign, 1, 0⟩
    else
      let m := roundScaled n d (e - 23)
      let e1 := if m = 16777216 then e + 1 else e
      if 127 < e1 then ⟨sign, 255, 0⟩
      else ⟨sign, Fin.ofNat (e1 + 127).toNat, Fin.ofNat (m % 8388608)⟩

/-- The C cast `(float)` of a `double`, in the default rounding mode. -/
def castToFloat : LuaNumber → CFloat
  | .finite q => roundToFloat (decide (q < 0)) q.num.natAbs q.den
  | .negZero => ⟨true, 0, 0⟩
  | .inf negative => ⟨negative, 255, 0⟩
  | .nan => ⟨false, 255, 4194304⟩


/-- Drop the zeros at the end of a digit list. -/
def stripZeros (ds : List Char) : List Char :=
  (ds.reverse.dropWhile (fun c => c = '0')).reverse

/-- The integer `e` with `10 ^ e ≤ n / d < 10 ^ (e + 1)`, for positive `n` and `d`. -/
def floorLog10 (n d : Nat) : Int :=
  if d ≤ n then ((Nat.toDigits 10 (n / d)).length : Int) - 1
  else
    let k := (Nat.toDigits 10 (d / n)).length
    if d ≤ n * 10 ^ (k - 1) then -((k : Int) - 1) else -(k : Int)

/-- The quotient `n / (d * 10 ^ k)` rounded to the nearest integer, ties to even. -/
def roundScaled10 (n d : Nat) (k : Int) : Nat :=
  if 0 ≤ k then roundHalfEven n (d * 10 ^ k.toNat) else roundHalfEven (n * 10 ^ (-k).toNat) d

/-- The text of `%.14g` for the positive number `n / d`. -/
def fmtG14 (n d : Nat) : List Char :=
  let e0 := floorLog10 n d
  let m0 := roundScaled10 n d (e0 - 13)
  let e := if m0 = 100000000000000 then e0 + 1 else e0
  let m := if m0 = 100000000000000 then 10000000000000 else m0
  let ds := Nat.toDigits 10 m
  if e < -4 ∨ 14 ≤ e then
    let frac := stripZeros (ds.drop 1)
    let ex := Nat.toDigits 10 e.natAbs
    ds.take 1 ++ (if frac = [] then [] else '.' :: frac) ++
      ['e', if e < 0 then '-' else '+'] ++ (if ex.length < 2 then '0' :: ex else ex)
  else if 0 ≤ e then
    let frac := stripZeros (ds.drop (e.toNat + 1))
    ds.take (e.toNat + 1) ++ (if frac = [] then [] else '.' :: frac)
  else
    '0' :: '.' :: (List.replicate ((-e).toNat - 1) '0' ++ stripZeros ds)

/-- The text the runtime gives a number (`lua_number2str`, the format `%.14g`). -/
def number2str : LuaNumber → String
  | .finite q =>
    if q = 0 then "0"
    else String.mk ((if q < 0 then ['-'] else []) ++ fmtG14 q.num.natAbs q.den)
  | .negZero => "-0"
  | .inf negative => if negative then "-inf" else "inf"
  | .nan => "nan"

/-- The conversions of a C99 platform. -/
def c99 : NumericConversions := ⟨number2str, castToFloat⟩

/-! ## Specification-side definitions -/

/-- The denylist of the specification. -/
def denylist : List String :=
  ["$flags", "$flags_defined", "$flags2", "$flags_defined2", "$envmap"]

/-- The names of the parameters of a material, null slots left out, in slot order. -/
def paramNames (pParams : List (Option IMaterialVar)) : List String :=
  pParams.filterMap (fun s => s.map IMaterialVar.GetName)

/-- The converted form the specification gives each kind of value: numbers and strings
as they are, a vector or matrix as its bracketed text in the fixed buffer, a reference
as the name of what it refers to, a four-character code as its integer; nothing for a
null reference or the undefined kind. -/
def convertValue : MaterialVarValue → Option KVValue
  | .float v => some (.float v)
  | .int v => some (.int v)
  | .string v => some (.string v)
  | .vector x y z => some (.string (snprintf 64 (vecFormat x y z)))
  | .texture (some t) => some (.string t.GetName)
  | .texture none => none
  | .material (some m) => some (.string m.GetName)
  | .material none => none
  | .matrix mat => some (.string (snprintf 256 (matFormat mat)))
  | .fourcc v => some (.int v)
  | .undefined => none

/-- The entry `read_material_parameters` yields for a slot: none for a null slot or a
name in the denylist, otherwise the name with the converted value. -/
def paramEntry (s : Option IMaterialVar) : Option (String × KVValue) :=
  match s with
  | none => none
  | some pVar =>
    if pVar.GetName ∈ denylist then none
    else (convertValue pVar.value).map (fun w => (pVar.GetName, w))

/-- Modelled from the spec: the engine is not part of the sources; the parameter a
material holds for a descriptor entry once `SetShaderAndParams` has "replaced the
parameter set by the entries of the descriptor". -/
def KVValue.toVarValue : KVValue → MaterialVarValue
  | .float v => .float v
  | .int v => .int v
  | .string v => .string v

/-- Modelled from the spec: the engine is not part of the sources; the effect of a
mutating call on the state of the material: `SetShaderAndParams` replaces the shader
name and the parameter set by the name and the entries of the descriptor, `SetShader`
replaces the shader name, `Refresh` changes neither. -/
def IMaterial.perform (m : IMaterial) : EngineCall → IMaterial
  | .SetShader _ shaderName => ⟨m.GetName, m.IsErrorMaterial, m.GetTextureGroupName,
      shaderName, m.params⟩
  | .SetShaderAndParams _ kv => ⟨m.GetName, m.IsErrorMaterial, m.GetTextureGroupName,
      kv.name, kv.entries.map (fun e => some ⟨e.1, e.2.toVarValue⟩)⟩
  | .Refresh _ => m

/-- The state of a material after `Material:SetShaderName(new_shader_name)` was called
on it (`rebuild_with_new_shader`), with the material system bound. -/
def rebuild_with_new_shader (rt : NumericConversions) (ms : IMaterialSystem)
    (m : IMaterial) (new_shader_name : String) : IMaterial :=
  (Material_SetShaderName rt (some ms) [.material (some m), .string new_shader_name]).calls.foldl
    IMaterial.perform m

/-- The registry entries that are not null, in index order from `0` to `count - 1`. -/
def registryEntries (ms : IMaterialSystem) : List IMaterial :=
  (List.range ms.GetNumMaterials.toNat).filterMap (fun i : Nat => ms.GetMaterial (i : Int))

/-- The name an entry is listed under: none for an error material and for a null or
empty name. -/
def listedName (m : IMaterial) : Option String :=
  if m.IsErrorMaterial then none
  else
    match m.GetName with
    | none => none
    | some n => if n = "" then none else some n

/-- The registry entries that are listed, each with the name it is listed under, in
registry order. -/
def listedMaterials (ms : IMaterialSystem) : List (IMaterial × String) :=
  (registryEntries ms).filterMap (fun m => (listedName m).map (fun n => (m, n)))

/-- The sequence of names `enumerate_all_materials` yields. -/
def enumerate_all_materials (ms : IMaterialSystem) : List String :=
  (listedMaterials ms).map Prod.snd

/-- The script table that holds the strings as an array: the keys are the numbers
`start`, `start + 1`, and so on, in order. -/
def arrayTable (start : Int) : List String → List (LuaValue × LuaValue)
  | [] => []
  | n :: ns => (.number (LuaNumber.ofInt start), .string n) :: arrayTable (start + 1) ns

/-- The float `1.0`. -/
def one : CFloat := ⟨false, 127, 0⟩

/-- The float `0.5`. -/
def half : CFloat := ⟨false, 126, 0⟩

/-- The float `1099511627776.0`, two to the power 40. -/
def twoPow40 : CFloat := ⟨false, 167, 0⟩

/-- A material with one parameter of every kind, a null slot and two denylisted names. -/
def brick : IMaterial :=
  ⟨some "brick/wall01", false, "World textures", "LightmappedGeneric",
    [some ⟨"$basetexture", .texture (some ⟨"brick/wall01"⟩)⟩,
     some ⟨"$flags", .int 2048⟩,
     none,
     some ⟨"$alpha", .float half⟩,
     some ⟨"$color", .vector one one one⟩,
     some ⟨"$bumpmap", .texture none⟩,
     some ⟨"$frame", .int 3⟩,
     some ⟨"$surfaceprop", .string "brick"⟩,
     some ⟨"$envmap", .texture (some ⟨"env_cubemap"⟩)⟩,
     some ⟨"$basetexturetransform", .matrix (fun i j => if i = j then one else ⟨false, 0, 0⟩)⟩,
     some ⟨"$fallbackmaterial", .material (some ⟨"brick/wall01_dx8"⟩)⟩,
     some ⟨"$detail", .material none⟩,
     some ⟨"$format", .fourcc 827611204⟩,
     some ⟨"$unused", .undefined⟩]⟩

/-- A material the engine flags as its error placeholder. -/
def errorMaterial : IMaterial := ⟨some "___error", true, "Other textures", "UnlitGeneric", []⟩

/-- A material of the group `models`. -/
def modelA : IMaterial := ⟨some "models/a", false, "models", "VertexLitGeneric", []⟩

/-- Another material of the group `models`. -/
def modelB : IMaterial := ⟨some "models/b", false, "models", "VertexLitGeneric", []⟩

/-- A material of the group `world`. -/
def worldC : IMaterial := ⟨some "world/c", false, "world", "LightmappedGeneric", []⟩

/-- A registry of three materials in the groups `models`, `models`, `world`; a lookup by
name finds these three and gives the error placeholder for every other name. -/
def threeMaterials : IMaterialSystem :=
  ⟨3,
   fun i => if i = 0 then some modelA else if i = 1 then some modelB
     else if i = 2 then some worldC else none,
   fun name _ => if name = "models/a" then some modelA else if name = "models/b" then some modelB
     else if name = "world/c" then some worldC else some errorMaterial⟩

/-- A registry of six slots with a null entry, an error placeholder, an entry with a null
name and an entry with an empty name among them. -/
def mixedRegistry : IMaterialSystem :=
  ⟨6,
   fun i => if i = 0 then some modelA else if i = 1 then none
     else if i = 2 then some errorMaterial
     else if i = 3 then some ⟨none, false, "models", "VertexLitGeneric", []⟩
     else if i = 4 then some ⟨some "", false, "models", "VertexLitGeneric", []⟩
     else if i = 5 then some worldC else none,
   fun _ _ => none⟩

/-- A material whose colour vector has three components of `1099511627776.0`. -/
def wideColor : IMaterial :=
  ⟨some "dev/wide", false, "Other textures", "UnlitGeneric",
    [some ⟨"$color", .vector twoPow40 twoPow40 twoPow40⟩]⟩

/-- A material whose texture transform has sixteen components of `1099511627776.0`. -/
def wideTransform : IMaterial :=
  ⟨some "dev/wide", false, "Other textures", "UnlitGeneric",
    [some ⟨"$basetexturetransform", .matrix (fun _ _ => twoPow40)⟩]⟩

/-- A material with a vector parameter, a parameter of undefined kind and a float. -/
def mixedKinds : IMaterial :=
  ⟨some "dev/mixed", false, "Other textures", "UnlitGeneric",
    [some ⟨"$color", .vector one one one⟩,
     some ⟨"$unused", .undefined⟩,
     some ⟨"$alpha", .float half⟩]⟩

/-- A material with two parameters of the same name. -/
def twoAlphas : IMaterial :=
  ⟨some "dev/twice", false, "Other textures", "UnlitGeneric",
    [some ⟨"$alpha", .float half⟩, some ⟨"$alpha", .float one⟩]⟩

/-! ## Theorems -/

theorem shouldSkip_iff (name : String) : ShouldSkipParameter name = true ↔ name ∈ denylist := by
  unfold ShouldSkipParameter denylist
  simp only [List.mem_cons, List.mem_singleton, List.not_mem_nil, or_false]
  split_ifs <;> simp_all

/-! ### Stack positions -/

theorem slot_one (a : LuaValue) (rest : List LuaValue) : slot (a :: rest) 1 = some a := by
  simp [slot]

theorem slot_two (a b : LuaValue) (rest : List LuaValue) :
    slot (a :: b :: rest) 2 = some b := by
  simp [slot]

theorem setEntry_of_not_mem (key : String) (v : KVValue) (l : List (String × KVValue))
    (h : key ∉ l.map Prod.fst) : setEntry key v l = l ++ [(key, v)] := by
  induction l with
  | nil => rfl
  | cons p l ih =>
    obtain ⟨k, w⟩ := p
    simp only [List.map_cons, List.mem_cons, not_or] at h
    simp [setEntry, Ne.symm h.1, ih h.2]

theorem mem_setEntry (key : String) (v : KVValue) (l : List (String × KVValue))
    (p : String × KVValue) (h : p ∈ setEntry key v l) : p = (key, v) ∨ p ∈ l := by
  induction l with
  | nil => simpa [setEntry] using h
  | cons q l ih =>
    obtain ⟨k, w⟩ := q
    simp only [setEntry] at h
    split_ifs at h with hk
    · rcases List.mem_cons.1 h with h | h
      · left; rw [h, hk]
      · right; exact List.mem_cons_of_mem _ h
    · rcases List.mem_cons.1 h with h | h
      · right; rw [h]; exact List.mem_cons_self _ _
      · rcases ih h with h | h
        · left; exact h
        · right; exact List.mem_cons_of_mem _ h

theorem copyParam_eq (kv : KeyValues) (s : Option IMaterialVar) :
    copyParam kv s =
      match paramEntry s with
      | none => kv
      | some e => ⟨kv.name, setEntry e.1 e.2 kv.entries⟩ := by
  cases s with
  | none => rfl
  | some pVar =>
    obtain ⟨name, value⟩ := pVar
    by_cases hs : ShouldSkipParameter name = true
    · have hm : name ∈ denylist := (shouldSkip_iff name).1 hs
      simp [copyParam, paramEntry, hs, hm]
    · have hm : name ∉ denylist := fun h => hs ((shouldSkip_iff name).2 h)
      cases value with
      | texture t => cases t <;> simp [copyParam, paramEntry, hs, hm, convertValue, KeyValues.SetString]
      | material t => cases t <;> simp [copyParam, paramEntry, hs, hm, convertValue, KeyValues.SetString]
      | _ => simp [copyParam, paramEntry, hs, hm, convertValue, KeyValues.SetString,
          KeyValues.SetFloat, KeyValues.SetInt]

theorem paramEntry_fst (s : Option IMaterialVar) (e : String × KVValue)
    (h : paramEntry s = some e) : ∃ pVar, s = some pVar ∧ pVar.GetName = e.1 ∧
      e.1 ∉ denylist ∧ convertValue pVar.value = some e.2 := by
  cases s with
  | none => simp [paramEntry] at h
  | some pVar =>
    refine ⟨pVar, rfl, ?_⟩
    simp only [paramEntry] at h
    split_ifs at h with hd
    cases hc : convertValue pVar.value with
    | none => simp [hc] at h
    | some w =>
      simp only [hc, Option.map_some', Option.some.injEq] at h
      subst h
      exact ⟨rfl, hd, rfl⟩

theorem copyParams_name (l : List (Option IMaterialVar)) (kv : KeyValues) :
    (copyParams kv l).name = kv.name := by
  induction l generalizing kv with
  | nil => rfl
  | cons s l ih =>
    simp only [copyParams, List.foldl_cons] at ih ⊢
    rw [ih, copyParam_eq]
    cases paramEntry s <;> rfl

theorem copyParams_mem (l : List (Option IMaterialVar)) (kv : KeyValues)
    (p : String × KVValue) (h : p ∈ (copyParams kv l).entries) :
    p ∈ kv.entries ∨ p ∈ l.filterMap paramEntry := by
  induction l generalizing kv with
  | nil => left; exact h
  | cons s l ih =>
    simp only [copyParams, List.foldl_cons] at ih h
    rcases ih _ h with h1 | h1
    · rw [copyParam_eq] at h1
      cases hs : paramEntry s with
      | none => rw [hs] at h1; left; exact h1
      | some e =>
        rw [hs] at h1
        rcases mem_setEntry _ _ _ _ h1 with h2 | h2
        · right; rw [List.filterMap_cons_some hs, h2]; exact List.mem_cons_self _ _
        · left; exact h2
    · right
      cases hs : paramEntry s with
      | none => rw [List.filterMap_cons_none hs]; exact h1
      | some e => rw [List.filterMap_cons_some hs]; exact List.mem_cons_of_mem _ h1

theorem setShaderName_outcome (rt : NumericConversions) (ms : IMaterialSystem) (m : IMaterial)
    (s : String) (rest : List LuaValue) :
    Material_SetShaderName rt (some ms) (.material (some m) :: .string s :: rest) =
      ⟨[.SetShaderAndParams m (copyParams (KeyValues.new s) m.params), .Refresh m],
        .returned []⟩ := by
  simp [Material_SetShaderName, GetType, GetUserType_IMaterial, GetString, slot_one, slot_two,
    LuaValue.type]

theorem paramNames_cons_some (pVar : IMaterialVar) (l : List (Option IMaterialVar)) :
    paramNames (some pVar :: l) = pVar.GetName :: paramNames l := by
  simp [paramNames]

theorem paramNames_cons_none (l : List (Option IMaterialVar)) :
    paramNames (none :: l) = paramNames l := by
  simp [paramNames]

theorem mem_paramNames (l : List (Option IMaterialVar)) (pVar : IMaterialVar)
    (h : some pVar ∈ l) : pVar.GetName ∈ paramNames l := by
  unfold paramNames
  exact List.mem_filterMap.2 ⟨some pVar, h, rfl⟩

theorem paramNames_inj (l : List (Option IMaterialVar)) (hn : (paramNames l).Nodup)
    (a b : IMaterialVar) (ha : some a ∈ l) (hb : some b ∈ l)
    (hab : a.GetName = b.GetName) : a = b := by
  induction l with
  | nil => simp at ha
  | cons s l ih =>
    cases s with
    | none =>
      rw [paramNames_cons_none] at hn
      simp only [List.mem_cons, reduceCtorEq, false_or] at ha hb
      exact ih hn ha hb
    | some c =>
      rw [paramNames_cons_some, List.nodup_cons] at hn
      simp only [List.mem_cons, Option.some.injEq] at ha hb
      rcases ha with ha | ha <;> rcases hb with hb | hb
      · rw [ha, hb]
      · exact absurd (by rw [← ha, hab]; exact mem_paramNames l b hb) hn.1
      · exact absurd (by rw [← hb, ← hab]; exact mem_paramNames l a ha) hn.1
      · exact ih hn.2 ha hb

theorem entryKeys_sublist (l : List (Option IMaterialVar)) :
    ((l.filterMap paramEntry).map Prod.fst).Sublist (paramNames l) := by
  induction l with
  | nil => simp [paramNames]
  | cons s l ih =>
    cases s with
    | none =>
      rw [paramNames_cons_none, List.filterMap_cons_none (by rfl)]
      exact ih
    | some pVar =>
      rw [paramNames_cons_some]
      cases hs : paramEntry (some pVar) with
      | none =>
        rw [List.filterMap_cons_none hs]
        exact List.Sublist.cons _ ih
      | some e =>
        rw [List.filterMap_cons_some hs, List.map_cons]
        obtain ⟨q, hq, hname, -, -⟩ := paramEntry_fst _ _ hs
        cases hq
        rw [← hname]
        exact List.Sublist.cons₂ _ ih

theorem copyParams_entries (l : List (Option IMaterialVar)) (kv : KeyValues)
    (hn : (kv.entries.map Prod.fst ++ (l.filterMap paramEntry).map Prod.fst).Nodup) :
    (copyParams kv l).entries = kv.entries ++ l.filterMap paramEntry := by
  induction l generalizing kv with
  | nil => simp [copyParams]
  | cons s l ih =>
    simp only [copyParams, List.foldl_cons] at ih ⊢
    rw [copyParam_eq]
    cases hs : paramEntry s with
    | none =>
      rw [List.filterMap_cons_none hs] at hn ⊢
      exact ih kv hn
    | some e =>
      rw [List.filterMap_cons_some hs] at hn ⊢
      have hnot : e.1 ∉ kv.entries.map Prod.fst := by
        intro hmem
        have := (List.nodup_append.1 hn).2.2
        exact this hmem (by simp)
      have hset : setEntry e.1 e.2 kv.entries = kv.entries ++ [e] :=
        setEntry_of_not_mem _ _ _ hnot
      simp only
      rw [ih ⟨kv.name, setEntry e.1 e.2 kv.entries⟩ (by simpa [hset] using hn), hset]
      simp

theorem copyParams_new_entries (l : List (Option IMaterialVar)) (s : String)
    (hn : (paramNames l).Nodup) :
    (copyParams (KeyValues.new s) l).entries = l.filterMap paramEntry := by
  rw [copyParams_entries]
  · simp [KeyValues.new]
  · simpa [KeyValues.new] using (entryKeys_sublist l).nodup hn

/-! ### Claim C1 -/

/-- Claim C1: `ShouldSkipParameter` is true exactly for the five names of the denylist,
compared whole and case-sensitively, and whatever the material, the descriptor that
`Material_SetShaderName` hands to the engine has no entry under one of those names. -/
theorem C1_denylist_omitted :
    (∀ name : String, ShouldSkipParameter name = true ↔
      (name = "$flags" ∨ name = "$flags_defined" ∨ name = "$flags2" ∨
        name = "$flags_defined2" ∨ name = "$envmap")) ∧
    (∀ (rt : NumericConversions) (ms : IMaterialSystem) (m : IMaterial) (s : String)
        (rest : List LuaValue),
      ∃ kv, Material_SetShaderName rt (some ms) (.material (some m) :: .string s :: rest) =
          ⟨[.SetShaderAndParams m kv, .Refresh m], .returned []⟩ ∧
        ∀ key w, (key, w) ∈ kv.entries → ShouldSkipParameter key = false ∧ key ∉ denylist) := by
  refine ⟨fun name => ?_, fun rt ms m s rest => ?_⟩
  · rw [shouldSkip_iff]; simp [denylist]
  · refine ⟨_, setShaderName_outcome rt ms m s rest, fun key w h => ?_⟩
    rcases copyParams_mem _ _ _ h with h | h
    · simp [KeyValues.new] at h
    · obtain ⟨sl, -, hs⟩ := List.mem_filterMap.1 h
      obtain ⟨pVar, -, -, hd, -⟩ := paramEntry_fst _ _ hs
      refine ⟨?_, hd⟩
      cases hk : ShouldSkipParameter key with
      | false => rfl
      | true => exact absurd ((shouldSkip_iff key).1 hk) hd

/-! ### Claim C7 -/

theorem mem_entries_of_param (l : List (Option IMaterialVar)) (pVar : IMaterialVar)
    (w : KVValue) (h : some pVar ∈ l) (hd : pVar.GetName ∉ denylist)
    (hc : convertValue pVar.value = some w) :
    (pVar.GetName, w) ∈ l.filterMap paramEntry :=
  List.mem_filterMap.2 ⟨some pVar, h, by simp [paramEntry, hd, hc]⟩

theorem not_mem_entries_of_param (l : List (Option IMaterialVar)) (hn : (paramNames l).Nodup)
    (pVar : IMaterialVar) (h : some pVar ∈ l) (hc : convertValue pVar.value = none)
    (w : KVValue) : (pVar.GetName, w) ∉ l.filterMap paramEntry := by
  intro hmem
  obtain ⟨sl, hsl, hs⟩ := List.mem_filterMap.1 hmem
  obtain ⟨q, hq, hname, -, hconv⟩ := paramEntry_fst _ _ hs
  subst hq
  have : q = pVar := paramNames_inj l hn q pVar hsl h hname
  subst this
  rw [hc] at hconv
  cases hconv

/-- Claim C7: for a material whose parameter names are pairwise distinct, the call
returns without error and the descriptor handed to the engine has, for every parameter
whose name is not in the denylist, an entry under its name holding the float, the
integer or the string as it is, a string for a vector or a matrix, the name of the
texture or material a non-null reference refers to, or the integer of a four-character
code; it has no entry under the name of a parameter of undefined kind or of a null
reference, and every entry comes from a non-null parameter slot. -/
theorem C7_recognized_kinds_copied (rt : NumericConversions) (ms : IMaterialSystem)
    (m : IMaterial) (s : String) (rest : List LuaValue)
    (hnames : (paramNames m.params).Nodup) :
    ∃ kv, Material_SetShaderName rt (some ms) (.material (some m) :: .string s :: rest) =
        ⟨[.SetShaderAndParams m kv, .Refresh m], .returned []⟩ ∧
      (∀ pVar, some pVar ∈ m.params → pVar.GetName ∉ denylist →
        match pVar.value with
        | .float v => (pVar.GetName, KVValue.float v) ∈ kv.entries
        | .int v => (pVar.GetName, KVValue.int v) ∈ kv.entries
        | .string v => (pVar.GetName, KVValue.string v) ∈ kv.entries
        | .vector _ _ _ => ∃ text, (pVar.GetName, KVValue.string text) ∈ kv.entries
        | .matrix _ => ∃ text, (pVar.GetName, KVValue.string text) ∈ kv.entries
        | .fourcc v => (pVar.GetName, KVValue.int v) ∈ kv.entries
        | .texture (some t) => (pVar.GetName, KVValue.string t.GetName) ∈ kv.entries
        | .material (some r) => (pVar.GetName, KVValue.string r.GetName) ∈ kv.entries
        | .texture none => ∀ w, (pVar.GetName, w) ∉ kv.entries
        | .material none => ∀ w, (pVar.GetName, w) ∉ kv.entries
        | .undefined => ∀ w, (pVar.GetName, w) ∉ kv.entries) ∧
      (∀ key w, (key, w) ∈ kv.entries → ∃ pVar, some pVar ∈ m.params ∧ pVar.GetName = key) := by
  refine ⟨_, setShaderName_outcome rt ms m s rest, ?_, ?_⟩
  · intro pVar hmem hd
    rw [copyParams_new_entries _ _ hnames]
    obtain ⟨name, value⟩ := pVar
    cases value with
    | texture t =>
      cases t with
      | none => exact not_mem_entries_of_param _ hnames _ hmem rfl
      | some t => exact mem_entries_of_param _ _ _ hmem hd rfl
    | material t =>
      cases t with
      | none => exact not_mem_entries_of_param _ hnames _ hmem rfl
      | some t => exact mem_entries_of_param _ _ _ hmem hd rfl
    | undefined => exact not_mem_entries_of_param _ hnames _ hmem rfl
    | vector x y z => exact ⟨_, mem_entries_of_param _ _ _ hmem hd rfl⟩
    | matrix mat => exact ⟨_, mem_entries_of_param _ _ _ hmem hd rfl⟩
    | _ => exact mem_entries_of_param _ _ _ hmem hd rfl
  · intro key w h
    rw [copyParams_new_entries _ _ hnames] at h
    obtain ⟨sl, hsl, hs⟩ := List.mem_filterMap.1 h
    obtain ⟨q, hq, hname, -, -⟩ := paramEntry_fst _ _ hs
    subst hq
    exact ⟨q, hsl, hname⟩

/-- The material `brick` has pairwise distinct parameter names, so claim C7 applies to
`brick:SetShaderName("VertexLitGeneric")`. -/
theorem C7_witness :
    (paramNames brick.params).Nodup ∧
    ∃ kv, Material_SetShaderName c99 (some threeMaterials)
        [.material (some brick), .string "VertexLitGeneric"] =
        ⟨[.SetShaderAndParams brick kv, .Refresh brick], .returned []⟩ ∧
      ("$alpha", KVValue.float half) ∈ kv.entries ∧
      ("$basetexture", KVValue.string "brick/wall01") ∈ kv.entries ∧
      ("$format", KVValue.int 827611204) ∈ kv.entries ∧
      ∀ w, ("$unused", w) ∉ kv.entries := by
  have hn : (paramNames brick.params).Nodup := by decide
  obtain ⟨kv, hkv, hall, -⟩ :=
    C7_recognized_kinds_copied c99 threeMaterials brick "VertexLitGeneric" [] hn
  refine ⟨hn, kv, hkv, ?_, ?_, ?_, ?_⟩
  · exact hall ⟨"$alpha", .float half⟩ (by simp [brick]) (by decide)
  · exact hall ⟨"$basetexture", .texture (some ⟨"brick/wall01"⟩)⟩ (by simp [brick]) (by decide)
  · exact hall ⟨"$format", .fourcc 827611204⟩ (by simp [brick]) (by decide)
  · exact hall ⟨"$unused", .undefined⟩ (by simp [brick]) (by decide)

/-! ### Claims C3 and C4: the enumerations -/

theorem ofInt_keyEq_false (a b : Int) (h : a ≠ b) :
    (LuaValue.number (LuaNumber.ofInt a)).keyEq (.number (LuaNumber.ofInt b)) = false := by
  simp [LuaValue.keyEq, LuaNumber.keyEq, LuaNumber.ofInt, h]

theorem setTable_arrayTable (names : List String) (start : Int) (n : String) :
    setTable (.number (LuaNumber.ofInt (start + names.length))) (.string n)
      (arrayTable start names) = arrayTable start (names ++ [n]) := by
  induction names generalizing start with
  | nil => simp [arrayTable, setTable]
  | cons a names ih =>
    have hne : start ≠ start + ((a :: names).length : Int) := by
      simp only [List.length_cons]; push_cast; omega
    have hidx : start + ((a :: names).length : Int) = start + 1 + (names.length : Int) := by
      simp only [List.length_cons]; push_cast; omega
    simp only [arrayTable, setTable, List.cons_append]
    rw [ofInt_keyEq_false _ _ hne]
    simp only [Bool.false_eq_true, if_false]
    rw [hidx, ih]
    rfl

theorem add_arrayTable (names : List String) (n : String) :
    EnumState.add ⟨arrayTable 1 names, 1 + names.length⟩ n =
      ⟨arrayTable 1 (names ++ [n]), 1 + ((names ++ [n]).length : Nat)⟩ := by
  simp only [EnumState.add, setTable_arrayTable, List.length_append, List.length_singleton]
  congr 1

theorem fold_enum (f : Nat → Option String) (step : EnumState → Nat → EnumState)
    (hstep : ∀ st i, step st i = match f i with
      | none => st
      | some n => st.add n)
    (l : List Nat) (names : List String) :
    l.foldl step ⟨arrayTable 1 names, 1 + names.length⟩ =
      ⟨arrayTable 1 (names ++ l.filterMap f), 1 + ((names ++ l.filterMap f).length : Nat)⟩ := by
  induction l generalizing names with
  | nil => simp
  | cons i l ih =>
    rw [List.foldl_cons, hstep]
    cases hf : f i with
    | none => simp only [List.filterMap_cons_none hf]; exact ih names
    | some n =>
      simp only [List.filterMap_cons_some hf]
      rw [add_arrayTable, ih]
      simp

theorem allMaterialsStep_eq (ms : IMaterialSystem) (st : EnumState) (i : Nat) :
    allMaterialsStep ms st i =
      match (ms.GetMaterial i).bind listedName with
      | none => st
      | some n => st.add n := by
  unfold allMaterialsStep listedName
  cases ms.GetMaterial i with
  | none => rfl
  | some m =>
    simp only [Option.some_bind]
    cases m.IsErrorMaterial with
    | true => rfl
    | false =>
      cases m.GetName with
      | none => rfl
      | some n => by_cases hn : n = "" <;> simp [hn]

theorem enumerate_all_eq (ms : IMaterialSystem) :
    (List.range ms.GetNumMaterials.toNat).filterMap
        (fun i : Nat => (ms.GetMaterial (i : Int)).bind listedName) = enumerate_all_materials ms := by
  unfold enumerate_all_materials listedMaterials registryEntries
  rw [List.filterMap_filterMap, List.map_filterMap]
  congr 1
  funext i
  cases ms.GetMaterial i with
  | none => rfl
  | some m => cases h : listedName m <;> simp [h]

theorem getAllMaterials_eq (ms : IMaterialSystem) (stack : List LuaValue) :
    GetAllMaterials (some ms) stack =
      ⟨[], .returned [.table (arrayTable 1 (enumerate_all_materials ms))]⟩ := by
  have h := fold_enum _ _ (allMaterialsStep_eq ms) (List.range ms.GetNumMaterials.toNat) []
  simp only [arrayTable, List.length_nil, Nat.cast_zero, add_zero, List.nil_append] at h
  simp only [GetAllMaterials, h, enumerate_all_eq]

theorem arrayTable_keys (names : List String) (start : Int) :
    (arrayTable start names).map Prod.fst =
      (List.range names.length).map
        (fun k : Nat => LuaValue.number (LuaNumber.ofInt (start + (k : Int)))) := by
  induction names generalizing start with
  | nil => rfl
  | cons a names ih =>
    simp only [arrayTable, List.map_cons, List.length_cons, List.range_succ_eq_map,
      List.map_map, ih, Nat.cast_zero, add_zero, List.cons.injEq, true_and]
    apply List.map_congr_left
    intro k _
    simp only [Function.comp, Nat.cast_succ]
    congr 2
    ring

theorem arrayTable_values (names : List String) (start : Int) :
    (arrayTable start names).map Prod.snd = names.map LuaValue.string := by
  induction names generalizing start with
  | nil => rfl
  | cons a names ih => simp [arrayTable, ih]

/-- Claim C3: with the material system bound, `GetAllMaterials` returns a table whose
keys are the numbers 1 to n in order and whose values are the names, in increasing
registry index from 0 to count - 1, of exactly the entries that are not null, not the
error material, and have a name that is neither null nor empty; so no returned name is
empty and every returned name is that of a registry entry not flagged as an error. -/
theorem C3_all_materials_listing (ms : IMaterialSystem) (stack : List LuaValue) :
    ∃ names : List String,
      GetAllMaterials (some ms) stack = ⟨[], .returned [.table (arrayTable 1 names)]⟩ ∧
      (arrayTable 1 names).map Prod.fst = (List.range names.length).map
        (fun k : Nat => LuaValue.number (LuaNumber.ofInt (1 + (k : Int)))) ∧
      (arrayTable 1 names).map Prod.snd = names.map LuaValue.string ∧
      names = (List.range ms.GetNumMaterials.toNat).filterMap (fun i : Nat =>
        match ms.GetMaterial (i : Int) with
        | some m =>
          if m.IsErrorMaterial = false ∧ m.GetName ≠ none ∧ m.GetName ≠ some "" then m.GetName
          else none
        | none => none) ∧
      (∀ n ∈ names, n ≠ "" ∧ ∃ (i : Nat) (m : IMaterial), (i : Int) < ms.GetNumMaterials ∧
        ms.GetMaterial (i : Int) = some m ∧ m.IsErrorMaterial = false ∧ m.GetName = some n) := by
  have hfun : (fun i : Nat => (ms.GetMaterial (i : Int)).bind listedName) = (fun i : Nat =>
        match ms.GetMaterial (i : Int) with
        | some m =>
          if m.IsErrorMaterial = false ∧ m.GetName ≠ none ∧ m.GetName ≠ some "" then m.GetName
          else none
        | none => none) := by
    funext i
    cases ms.GetMaterial (i : Int) with
    | none => rfl
    | some m =>
      simp only [Option.some_bind, listedName]
      cases m.IsErrorMaterial with
      | true => simp
      | false =>
        cases m.GetName with
        | none => simp
        | some n => by_cases hn : n = "" <;> simp [hn]
  refine ⟨enumerate_all_materials ms, getAllMaterials_eq ms stack, arrayTable_keys _ _,
    arrayTable_values _ _, ?_, ?_⟩
  · rw [← enumerate_all_eq, hfun]
  · intro n hn
    rw [← enumerate_all_eq] at hn
    obtain ⟨i, hi, hb⟩ := List.mem_filterMap.1 hn
    have hlt : (i : Int) < ms.GetNumMaterials := by
      have := List.mem_range.1 hi
      omega
    cases hm : ms.GetMaterial (i : Int) with
    | none => simp [hm] at hb
    | some m =>
      simp only [hm, Option.some_bind, listedName] at hb
      cases he : m.IsErrorMaterial with
      | true => simp [he] at hb
      | false =>
        cases hname : m.GetName with
        | none => simp [he, hname] at hb
        | some n' =>
          by_cases hempty : n' = ""
          · simp [he, hname, hempty] at hb
          · simp only [he, hname, hempty, if_false, Bool.false_eq_true, Option.some.injEq] at hb
            subst hb
            exact ⟨hempty, i, m, hlt, hm, he, hname⟩

/-- On the registry `mixedRegistry` the null entry, the error placeholder and the
entries with a null or an empty name are left out by `GetAllMaterials`. -/
theorem C3_witness :
    GetAllMaterials (some mixedRegistry) [] =
      ⟨[], .returned [.table [(.number (LuaNumber.ofInt 1), .string "models/a"),
        (.number (LuaNumber.ofInt 2), .string "world/c")]]⟩ := by
  obtain ⟨names, h, -, -, hn, -⟩ := C3_all_materials_listing mixedRegistry []
  have hr : List.range 6 = [0, 1, 2, 3, 4, 5] := by decide
  have : names = ["models/a", "world/c"] := by
    rw [hn]
    simp [mixedRegistry, hr, modelA, worldC, errorMaterial]
  rw [h, this]
  rfl

/-! ### Claim C5 -/

/-- Claim C5: called with two strings and the material system bound, `ChangeShader`
returns false, with no error and no engine call, when the lookup gives null or an
error material; when the lookup gives a material that is not an error material it calls
`SetShader(shaderName)` and then `Refresh` on it, makes no other engine call, and
returns true; and it returns true in that case only. -/
theorem C5_change_shader (rt : NumericConversions) (ms : IMaterialSystem)
    (materialName shaderName : String) (rest : List LuaValue) :
    ((ms.FindMaterial materialName TEXTURE_GROUP_OTHER = none ∨
        ∃ m, ms.FindMaterial materialName TEXTURE_GROUP_OTHER = some m ∧
          m.IsErrorMaterial = true) →
      ChangeShader rt (some ms) (.string materialName :: .string shaderName :: rest) =
        ⟨[], .returned [.bool false]⟩) ∧
    (∀ m, ms.FindMaterial materialName TEXTURE_GROUP_OTHER = some m →
      m.IsErrorMaterial = false →
      ChangeShader rt (some ms) (.string materialName :: .string shaderName :: rest) =
        ⟨[.SetShader m shaderName, .Refresh m], .returned [.bool true]⟩) ∧
    ((ChangeShader rt (some ms) (.string materialName :: .string shaderName :: rest)).result =
        .returned [.bool true] ↔
      ∃ m, ms.FindMaterial materialName TEXTURE_GROUP_OTHER = some m ∧
        m.IsErrorMaterial = false) := by
  have hrun : ChangeShader rt (some ms) (.string materialName :: .string shaderName :: rest) =
      match ms.FindMaterial materialName TEXTURE_GROUP_OTHER with
      | none => ⟨[], .returned [.bool false]⟩
      | some pMaterial =>
        if pMaterial.IsErrorMaterial then ⟨[], .returned [.bool false]⟩
        else ⟨[.SetShader pMaterial shaderName, .Refresh pMaterial], .returned [.bool true]⟩ := by
    simp [ChangeShader, GetType, GetString, slot_one, slot_two, LuaValue.type]
  refine ⟨?_, ?_, ?_⟩
  · rintro (h | ⟨m, h, he⟩)
    · simp [hrun, h]
    · simp [hrun, h, he]
  · intro m h he
    simp [hrun, h, he]
  · rw [hrun]
    cases h : ms.FindMaterial materialName TEXTURE_GROUP_OTHER with
    | none => simp
    | some m => cases he : m.IsErrorMaterial <;> simp [he]

/-- On the registry `threeMaterials` the name `nonexistent_material_xyz` is looked up to
the error placeholder, and `ChangeShader` returns false without any engine call. -/
theorem C5_witness :
    ChangeShader c99 (some threeMaterials)
        [.string "nonexistent_material_xyz", .string "anything"] =
      ⟨[], .returned [.bool false]⟩ :=
  (C5_change_shader c99 threeMaterials "nonexistent_material_xyz" "anything" []).1
    (Or.inr ⟨errorMaterial, by decide, rfl⟩)

/-! ### Claim C6 -/

/-- Claim C6: with the material-system pointer unset each of the five functions raises
the initialisation error without any engine call; `Material_SetShaderName` and
`Material_SetShaderAndParams` raise an error without any engine call when an argument
has the wrong type or the material handle is null; and whenever a function has made an
engine call, the pointer was set and every check of that function had passed (the two
enumerations make no engine call at all). -/
theorem C6_validation_before_mutation :
    (∀ (rt : NumericConversions) (stack : List LuaValue),
      Material_SetShaderName rt none stack =
        ⟨[], .raised (.ThrowError "Material system not initialized!")⟩ ∧
      Material_SetShaderAndParams rt none stack =
        ⟨[], .raised (.ThrowError "Material system not initialized!")⟩ ∧
      ChangeShader rt none stack =
        ⟨[], .raised (.ThrowError "Material system not initialized!")⟩ ∧
      GetAllMaterials none stack =
        ⟨[], .raised (.ThrowError "Material system not initialized!")⟩ ∧
      GetMaterialsByGroup rt none stack =
        ⟨[], .raised (.ThrowError "Material system not initialized!")⟩) ∧
    (∀ (rt : NumericConversions) (g : Option IMaterialSystem) (stack : List LuaValue),
      (GetType stack 1 ≠ .MATERIAL ∨ GetType stack 2 ≠ .STRING ∨
        GetUserType_IMaterial stack 1 = none) →
      (Material_SetShaderName rt g stack).calls = [] ∧
        ∃ e, (Material_SetShaderName rt g stack).result = .raised e) ∧
    (∀ (rt : NumericConversions) (g : Option IMaterialSystem) (stack : List LuaValue),
      (GetType stack 1 ≠ .MATERIAL ∨ GetType stack 2 ≠ .TABLE ∨
        GetUserType_IMaterial stack 1 = none) →
      (Material_SetShaderAndParams rt g stack).calls = [] ∧
        ∃ e, (Material_SetShaderAndParams rt g stack).result = .raised e) ∧
    (∀ (rt : NumericConversions) (g : Option IMaterialSystem) (stack : List LuaValue),
      (Material_SetShaderName rt g stack).calls ≠ [] →
      g ≠ none ∧ GetType stack 1 = .MATERIAL ∧ GetType stack 2 = .STRING ∧
        GetUserType_IMaterial stack 1 ≠ none) ∧
    (∀ (rt : NumericConversions) (g : Option IMaterialSystem) (stack : List LuaValue),
      (Material_SetShaderAndParams rt g stack).calls ≠ [] →
      g ≠ none ∧ GetType stack 1 = .MATERIAL ∧ GetType stack 2 = .TABLE ∧
        GetUserType_IMaterial stack 1 ≠ none) ∧
    (∀ (rt : NumericConversions) (g : Option IMaterialSystem) (stack : List LuaValue),
      (ChangeShader rt g stack).calls ≠ [] →
      g ≠ none ∧ GetType stack 1 = .STRING ∧ GetType stack 2 = .STRING) ∧
    (∀ (rt : NumericConversions) (g : Option IMaterialSystem) (stack : List LuaValue),
      (GetAllMaterials g stack).calls = [] ∧ (GetMaterialsByGroup rt g stack).calls = []) := by
  refine ⟨fun rt stack => ⟨rfl, rfl, rfl, rfl, rfl⟩, ?_, ?_, ?_, ?_, ?_, ?_⟩
  · intro rt g stack h
    cases g with
    | none => exact ⟨rfl, _, rfl⟩
    | some ms =>
      simp only [Material_SetShaderName]
      split_ifs with h1 h2
      · exact ⟨rfl, _, rfl⟩
      · exact ⟨rfl, _, rfl⟩
      · rcases h with h | h | h
        · exact absurd h (not_not.2 (not_not.1 h1))
        · exact absurd h (not_not.2 (not_not.1 h2))
        · rw [h]; exact ⟨rfl, _, rfl⟩
  · intro rt g stack h
    cases g with
    | none => exact ⟨rfl, _, rfl⟩
    | some ms =>
      simp only [Material_SetShaderAndParams]
      split_ifs with h1 h2
      · exact ⟨rfl, _, rfl⟩
      · exact ⟨rfl, _, rfl⟩
      · rcases h with h | h | h
        · exact absurd h (not_not.2 (not_not.1 h1))
        · exact absurd h (not_not.2 (not_not.1 h2))
        · rw [h]; exact ⟨rfl, _, rfl⟩
  · intro rt g stack h
    cases g with
    | none => exact absurd rfl h
    | some ms =>
      simp only [Material_SetShaderName] at h
      split_ifs at h with h1 h2
      · exact absurd rfl h
      · exact absurd rfl h
      · refine ⟨by simp, not_not.1 h1, not_not.1 h2, ?_⟩
        intro hnone
        rw [hnone] at h
        exact absurd rfl h
  · intro rt g stack h
    cases g with
    | none => exact absurd rfl h
    | some ms =>
      simp only [Material_SetShaderAndParams] at h
      split_ifs at h with h1 h2
      · exact absurd rfl h
      · exact absurd rfl h
      · refine ⟨by simp, not_not.1 h1, not_not.1 h2, ?_⟩
        intro hnone
        rw [hnone] at h
        exact absurd rfl h
  · intro rt g stack h
    cases g with
    | none => exact absurd rfl h
    | some ms =>
      simp only [ChangeShader] at h
      split_ifs at h with h1 h2
      · exact absurd rfl h
      · exact absurd rfl h
      · exact ⟨by simp, not_not.1 h1, not_not.1 h2⟩
  · intro rt g stack
    cases g with
    | none => exact ⟨rfl, rfl⟩
    | some ms =>
      refine ⟨rfl, ?_⟩
      simp only [GetMaterialsByGroup]
      split_ifs
      · rfl
      · split <;> rfl

/-! ### Claim C2 -/

theorem snprintf_of_fits (size : Nat) (text : String) (h : text.length ≤ size - 1) :
    snprintf size text = text := by
  unfold snprintf
  rw [List.take_of_length_le h]

theorem snprintf_ne_of_long (size : Nat) (text : String) (h : size - 1 < text.length) :
    snprintf size text ≠ text := by
  intro heq
  have hlen : (snprintf size text).length ≤ size - 1 := by
    show (text.data.take (size - 1)).length ≤ size - 1
    rw [List.length_take]
    exact Nat.min_le_left _ _
  rw [heq] at hlen
  omega

theorem snprintf_length (size : Nat) (text : String) :
    (snprintf size text).length ≤ size - 1 := by
  show (text.data.take (size - 1)).length ≤ size - 1
  rw [List.length_take]
  exact Nat.min_le_left _ _

theorem roundHalfEven_le (n d : Nat) : roundHalfEven n d ≤ n / d + 1 := by
  unfold roundHalfEven
  simp only
  split_ifs <;> omega

theorem micros_lt (f : CFloat) (h : f.isFinite = true) :
    f.micros / 1000000 < 10 ^ 39 := by
  have hexp : f.exponent.val < 255 := by simpa [CFloat.isFinite] using h
  have hsig : f.significand < 2 ^ 24 := by
    have := f.fraction.isLt
    unfold CFloat.significand
    split_ifs <;> omega
  have hscale : f.scale ≤ 253 := by
    unfold CFloat.scale
    split_ifs <;> omega
  have hpow : 2 ^ f.scale ≤ 2 ^ 253 := Nat.pow_le_pow_right (by decide) hscale
  have hprod : f.significand * 2 ^ f.scale * 1000000 < 2 ^ 128 * 1000000 * 2 ^ 149 := by
    have h1 : f.significand * 2 ^ f.scale < 2 ^ 24 * 2 ^ 253 :=
      Nat.mul_lt_mul_of_lt_of_le hsig hpow (by positivity)
    have h2 : f.significand * 2 ^ f.scale * 1000000 < 2 ^ 24 * 2 ^ 253 * 1000000 :=
      Nat.mul_lt_mul_of_pos_right h1 (by decide)
    calc f.significand * 2 ^ f.scale * 1000000 < 2 ^ 24 * 2 ^ 253 * 1000000 := h2
      _ = 2 ^ 128 * 1000000 * 2 ^ 149 := by norm_num
  have hdiv : f.significand * 2 ^ f.scale * 1000000 / 2 ^ 149 < 2 ^ 128 * 1000000 :=
    Nat.div_lt_of_lt_mul (by rw [Nat.mul_comm (2 ^ 149) (2 ^ 128 * 1000000)]; exact hprod)
  have hm : f.micros ≤ 2 ^ 128 * 1000000 := by
    unfold CFloat.micros
    exact le_trans (roundHalfEven_le _ _) hdiv
  have : f.micros / 1000000 ≤ 2 ^ 128 := by
    apply Nat.div_le_of_le_mul
    rw [Nat.mul_comm]; exact hm
  exact lt_of_le_of_lt this (by norm_num)

theorem toDigits_length_le (n e : Nat) (he : 0 < e) (h : n < 10 ^ e) :
    (Nat.toDigits 10 n).length ≤ e :=
  Nat.toDigitsCore_length 10 (by decide) (n + 1) n e h he

theorem sixDigits_length (n : Nat) : (sixDigits n).length ≤ 6 := by
  unfold sixDigits
  have h : 1000000 + n % 1000000 < 10 ^ 7 := by
    have := Nat.mod_lt n (show 0 < 1000000 by decide)
    omega
  have := toDigits_length_le _ 7 (by decide) h
  rw [List.length_drop]
  omega

theorem fmt_f_length (f : CFloat) (h : f.isFinite = true) : (fmt_f f).length ≤ 47 := by
  have hexp : f.exponent.val ≠ 255 := by
    have : f.exponent.val < 255 := by simpa [CFloat.isFinite] using h
    omega
  have h1 := toDigits_length_le _ 39 (by decide) (micros_lt f h)
  have h2 := sixDigits_length f.micros
  unfold fmt_f
  rw [if_neg hexp, String.length_append]
  have hs : (if f.sign = true then "-" else "").length ≤ 1 := by split_ifs <;> decide
  have hb : (String.mk (Nat.toDigits 10 (f.micros / 1000000) ++ '.' :: sixDigits f.micros)).length
      ≤ 46 := by
    show (Nat.toDigits 10 (f.micros / 1000000) ++ '.' :: sixDigits f.micros).length ≤ 46
    rw [List.length_append, List.length_cons]
    omega
  omega

theorem digitChar_ne_space (n : Nat) : Nat.digitChar n ≠ ' ' := by
  rcases Nat.lt_or_ge n 16 with h | h
  · interval_cases n <;> decide
  · have hstar : Nat.digitChar n = '*' := by
      unfold Nat.digitChar
      repeat rw [if_neg (by omega)]
    rw [hstar]
    decide

theorem toDigitsCore_no_space (b f n : Nat) (ds : List Char) (h : ' ' ∉ ds) :
    ' ' ∉ Nat.toDigitsCore b f n ds := by
  induction f generalizing n ds with
  | zero => simpa [Nat.toDigitsCore] using h
  | succ f ih =>
    have hc : ' ' ∉ Nat.digitChar (n % b) :: ds := by
      intro hmem
      rcases List.mem_cons.1 hmem with h1 | h1
      · exact digitChar_ne_space _ h1.symm
      · exact h h1
    simp only [Nat.toDigitsCore]
    split_ifs
    · exact hc
    · exact ih _ _ hc

theorem toDigits_no_space (n : Nat) : ' ' ∉ Nat.toDigits 10 n :=
  toDigitsCore_no_space 10 _ n [] (by simp)

theorem fmt_f_no_space (f : CFloat) : ' ' ∉ (fmt_f f).data := by
  unfold fmt_f
  rw [String.data_append, List.mem_append]
  rintro (h | h)
  · split_ifs at h <;> simp at h
  · split_ifs at h
    · simp at h
    · simp at h
    · simp only [List.mem_append, List.mem_cons] at h
      rcases h with h | h | h
      · exact toDigits_no_space _ h
      · simp at h
      · exact toDigits_no_space _ (List.mem_of_mem_drop h)

theorem matFormat_prefix (mat : VMatrix) :
    ∃ rest : List Char, (matFormat mat).data =
      ('[' :: ((fmt_f (mat 0 0)).data ++ ' ' :: ((fmt_f (mat 0 1)).data ++
        ' ' :: ((fmt_f (mat 0 2)).data ++ ' ' :: ((fmt_f (mat 0 3)).data ++
        ' ' :: ((fmt_f (mat 1 0)).data ++ [' '])))))) ++ rest := by
  refine ⟨(fmt_f (mat 1 1)).data ++ ' ' :: ((fmt_f (mat 1 2)).data ++ ' ' ::
    ((fmt_f (mat 1 3)).data ++ ' ' :: ((fmt_f (mat 2 0)).data ++ ' ' ::
    ((fmt_f (mat 2 1)).data ++ ' ' :: ((fmt_f (mat 2 2)).data ++ ' ' ::
    ((fmt_f (mat 2 3)).data ++ ' ' :: ((fmt_f (mat 3 0)).data ++ ' ' ::
    ((fmt_f (mat 3 1)).data ++ ' ' :: ((fmt_f (mat 3 2)).data ++ ' ' ::
    ((fmt_f (mat 3 3)).data ++ [']'])))))))))), ?_⟩
  simp [matFormat, matArgs, String.intercalate, String.intercalate.go]

theorem take_append_of_le (pre rest : List Char) (n : Nat) (h : pre.length ≤ n) :
    (pre ++ rest).take n = pre ++ rest.take (n - pre.length) := by
  rw [List.take_append_eq_append_take, List.take_of_length_le h]

theorem stored_matrix_prefix (mat : VMatrix) (h00 : (mat 0 0).isFinite = true)
    (h01 : (mat 0 1).isFinite = true) (h02 : (mat 0 2).isFinite = true)
    (h03 : (mat 0 3).isFinite = true) (h10 : (mat 1 0).isFinite = true) :
    ∃ tail : List Char, (snprintf 256 (matFormat mat)).data =
      ('[' :: ((fmt_f (mat 0 0)).data ++ ' ' :: ((fmt_f (mat 0 1)).data ++
        ' ' :: ((fmt_f (mat 0 2)).data ++ ' ' :: ((fmt_f (mat 0 3)).data ++
        ' ' :: ((fmt_f (mat 1 0)).data ++ [' '])))))) ++ tail := by
  obtain ⟨rest, hrest⟩ := matFormat_prefix mat
  have l00 := fmt_f_length _ h00
  have l01 := fmt_f_length _ h01
  have l02 := fmt_f_length _ h02
  have l03 := fmt_f_length _ h03
  have l10 := fmt_f_length _ h10
  simp only [String.length] at l00 l01 l02 l03 l10
  refine ⟨rest.take (255 - ('[' :: ((fmt_f (mat 0 0)).data ++ ' ' :: ((fmt_f (mat 0 1)).data ++
        ' ' :: ((fmt_f (mat 0 2)).data ++ ' ' :: ((fmt_f (mat 0 3)).data ++
        ' ' :: ((fmt_f (mat 1 0)).data ++ [' '])))))).length), ?_⟩
  show (matFormat mat).data.take (256 - 1) = _
  rw [hrest]
  apply take_append_of_le
  simp only [List.length_cons, List.length_append, List.length_singleton, List.length_nil]
  omega

set_option maxRecDepth 100000 in
/-- Claim C8 at a failing input: the vector text is stored whole exactly when it fits in
63 bytes, but for the three components `1099511627776.0` the text `[x y z]` has 64
characters and the string handed to the engine is its first 63, without the closing
bracket. -/
theorem C8_vector_text_cut :
    (∀ x y z : CFloat, (vecFormat x y z).length ≤ 63 →
      snprintf 64 (vecFormat x y z) = vecFormat x y z) ∧
    (∀ x y z : CFloat, 63 < (vecFormat x y z).length →
      snprintf 64 (vecFormat x y z) ≠ vecFormat x y z) ∧
    twoPow40.isFinite = true ∧
    vecFormat twoPow40 twoPow40 twoPow40 =
      "[1099511627776.000000 1099511627776.000000 1099511627776.000000]" ∧
    Material_SetShaderName c99 (some threeMaterials)
        [.material (some wideColor), .string "UnlitGeneric"] =
      ⟨[.SetShaderAndParams wideColor ⟨"UnlitGeneric",
          [("$color", .string
            "[1099511627776.000000 1099511627776.000000 1099511627776.000000")]⟩,
        .Refresh wideColor], .returned []⟩ := by
  refine ⟨fun x y z h => snprintf_of_fits 64 _ h, fun x y z h => snprintf_ne_of_long 64 _ h,
    by decide, by decide, ?_⟩
  rw [setShaderName_outcome]
  have : copyParams (KeyValues.new "UnlitGeneric") wideColor.params = ⟨"UnlitGeneric",
      [("$color", .string
        "[1099511627776.000000 1099511627776.000000 1099511627776.000000")]⟩ := by
    decide
  rw [this]

set_option maxRecDepth 100000 in
/-- Claim C9 at a failing input: the sixteen arguments are passed in row-major order, the
text is stored whole whenever it fits in 255 bytes, and for every matrix of finite
floats the stored string begins with the bracket and the first five numbers, each
followed by a space, so that its fifth number is the text of `m[1][0]`; but for
sixteen components `1099511627776.0` the text has 337 characters and the string handed
to the engine is its first 255: twelve whole numbers, the first two digits of the
thirteenth, no closing bracket. -/
theorem C9_matrix_text_cut :
    (∀ (mat : VMatrix) (i j : Fin 4), (matArgs mat).get? (4 * i.val + j.val) = some (mat i j)) ∧
    (∀ mat : VMatrix, (matFormat mat).length ≤ 255 →
      snprintf 256 (matFormat mat) = matFormat mat) ∧
    (∀ mat : VMatrix, (∀ i j, (mat i j).isFinite = true) →
      ∃ tail : List Char, (snprintf 256 (matFormat mat)).data =
        ('[' :: ((fmt_f (mat 0 0)).data ++ ' ' :: ((fmt_f (mat 0 1)).data ++
          ' ' :: ((fmt_f (mat 0 2)).data ++ ' ' :: ((fmt_f (mat 0 3)).data ++
          ' ' :: ((fmt_f (mat 1 0)).data ++ [' '])))))) ++ tail) ∧
    (∀ f : CFloat, ' ' ∉ (fmt_f f).data) ∧
    twoPow40.isFinite = true ∧
    (matFormat (fun _ _ => twoPow40)).length = 337 ∧
    Material_SetShaderName c99 (some threeMaterials)
        [.material (some wideTransform), .string "UnlitGeneric"] =
      ⟨[.SetShaderAndParams wideTransform ⟨"UnlitGeneric",
          [("$basetexturetransform", .string
            "[1099511627776.000000 1099511627776.000000 1099511627776.000000 1099511627776.000000 1099511627776.000000 1099511627776.000000 1099511627776.000000 1099511627776.000000 1099511627776.000000 1099511627776.000000 1099511627776.000000 1099511627776.000000 10")]⟩,
        .Refresh wideTransform], .returned []⟩ := by
  refine ⟨?_, fun mat h => snprintf_of_fits 256 _ h,
    fun mat h => stored_matrix_prefix mat (h 0 0) (h 0 1) (h 0 2) (h 0 3) (h 1 0),
    fmt_f_no_space, by decide, by decide, ?_⟩
  · intro mat i j
    fin_cases i <;> fin_cases j <;> rfl
  · rw [setShaderName_outcome]
    have : copyParams (KeyValues.new "UnlitGeneric") wideTransform.params = ⟨"UnlitGeneric",
        [("$basetexturetransform", .string
          "[1099511627776.000000 1099511627776.000000 1099511627776.000000 1099511627776.000000 1099511627776.000000 1099511627776.000000 1099511627776.000000 1099511627776.000000 1099511627776.000000 1099511627776.000000 1099511627776.000000 1099511627776.000000 10")]⟩ := by
      decide
    rw [this]

/-! ### Claim C10 -/

theorem rebuild_eq (rt : NumericConversions) (ms : IMaterialSystem) (m : IMaterial)
    (s : String) :
    rebuild_with_new_shader rt ms m s =
      ⟨m.GetName, m.IsErrorMaterial, m.GetTextureGroupName, s,
        (copyParams (KeyValues.new s) m.params).entries.map
          (fun e => some ⟨e.1, e.2.toVarValue⟩)⟩ := by
  simp only [rebuild_with_new_shader, setShaderName_outcome, List.foldl_cons, List.foldl_nil,
    IMaterial.perform, copyParams_name]
  rfl

theorem setEntry_keys_nodup (key : String) (v : KVValue) (l : List (String × KVValue))
    (h : (l.map Prod.fst).Nodup) : ((setEntry key v l).map Prod.fst).Nodup := by
  induction l with
  | nil => simp [setEntry]
  | cons p l ih =>
    obtain ⟨k, w⟩ := p
    simp only [List.map_cons, List.nodup_cons] at h
    simp only [setEntry]
    split_ifs with hk
    · simpa using h
    · simp only [List.map_cons, List.nodup_cons]
      refine ⟨?_, ih h.2⟩
      intro hmem
      obtain ⟨q, hq, hq1⟩ := List.mem_map.1 hmem
      rcases mem_setEntry _ _ _ _ hq with h1 | h1
      · rw [h1] at hq1
        exact hk hq1.symm
      · exact h.1 (List.mem_map.2 ⟨q, h1, hq1⟩)

theorem copyParams_keys_nodup (l : List (Option IMaterialVar)) (kv : KeyValues)
    (h : (kv.entries.map Prod.fst).Nodup) :
    ((copyParams kv l).entries.map Prod.fst).Nodup := by
  induction l generalizing kv with
  | nil => exact h
  | cons s l ih =>
    simp only [copyParams, List.foldl_cons] at ih ⊢
    apply ih
    rw [copyParam_eq]
    cases paramEntry s with
    | none => exact h
    | some e => exact setEntry_keys_nodup _ _ _ h

theorem paramEntry_toVar (e : String × KVValue) (h : e.1 ∉ denylist) :
    paramEntry (some ⟨e.1, e.2.toVarValue⟩) = some e := by
  obtain ⟨k, w⟩ := e
  cases w <;> simp [paramEntry, h, KVValue.toVarValue, convertValue]

theorem filterMap_toVar (l : List (String × KVValue)) (h : ∀ e ∈ l, e.1 ∉ denylist) :
    (l.map (fun e => some (⟨e.1, e.2.toVarValue⟩ : IMaterialVar))).filterMap paramEntry = l := by
  induction l with
  | nil => rfl
  | cons e l ih =>
    rw [List.map_cons, List.filterMap_cons_some (paramEntry_toVar e (h e (List.mem_cons_self _ _))),
      ih (fun e he => h e (List.mem_cons_of_mem _ he))]

theorem copyParams_idem (l : List (Option IMaterialVar)) (s : String) :
    (copyParams (KeyValues.new s)
        ((copyParams (KeyValues.new s) l).entries.map
          (fun e => some (⟨e.1, e.2.toVarValue⟩ : IMaterialVar)))).entries =
      (copyParams (KeyValues.new s) l).entries := by
  have hd : ∀ e ∈ (copyParams (KeyValues.new s) l).entries, e.1 ∉ denylist := by
    intro e he
    rcases copyParams_mem _ _ _ he with h | h
    · simp [KeyValues.new] at h
    · obtain ⟨sl, -, hs⟩ := List.mem_filterMap.1 h
      obtain ⟨pVar, -, -, hden, -⟩ := paramEntry_fst _ _ hs
      exact hden
  have hn : ((copyParams (KeyValues.new s) l).entries.map Prod.fst).Nodup :=
    copyParams_keys_nodup l _ (by simp [KeyValues.new])
  rw [copyParams_entries]
  · rw [filterMap_toVar _ hd]
    simp [KeyValues.new]
  · rw [filterMap_toVar _ hd]
    simpa [KeyValues.new] using hn

/-- Claim C10, amended: with the engine modelled as replacing the shader name and the
parameter set by the name and entries of the descriptor, `Material:SetShaderName`
on a material whose parameter names are pairwise distinct keeps every parameter of
kind float, integer or string whose name is not in the denylist, with the same name
and the same value; every other parameter that has a converted form is present under
its name in that form; a parameter without one (undefined kind, null reference) is
absent; and for every material, applying the operation twice with the same shader name
gives the same material state as applying it once. -/
theorem C10_rebuild_keeps_scalars (rt : NumericConversions) (ms : IMaterialSystem)
    (m : IMaterial) (s : String) :
    ((paramNames m.params).Nodup → ∀ pVar, some pVar ∈ m.params → pVar.GetName ∉ denylist →
      ((∃ v, pVar.value = .float v) ∨ (∃ v, pVar.value = .int v) ∨
        (∃ v, pVar.value = .string v)) →
      some pVar ∈ (rebuild_with_new_shader rt ms m s).params) ∧
    ((paramNames m.params).Nodup → ∀ pVar, some pVar ∈ m.params → pVar.GetName ∉ denylist →
      ∀ w, convertValue pVar.value = some w →
      some ⟨pVar.GetName, w.toVarValue⟩ ∈ (rebuild_with_new_shader rt ms m s).params) ∧
    ((paramNames m.params).Nodup → ∀ pVar, some pVar ∈ m.params →
      convertValue pVar.value = none →
      ∀ value, some ⟨pVar.GetName, value⟩ ∉ (rebuild_with_new_shader rt ms m s).params) ∧
    (rebuild_with_new_shader rt ms m s).shader = s ∧
    rebuild_with_new_shader rt ms (rebuild_with_new_shader rt ms m s) s =
      rebuild_with_new_shader rt ms m s := by
  have hconv : (paramNames m.params).Nodup → ∀ pVar, some pVar ∈ m.params →
      pVar.GetName ∉ denylist → ∀ w, convertValue pVar.value = some w →
      some ⟨pVar.GetName, w.toVarValue⟩ ∈ (rebuild_with_new_shader rt ms m s).params := by
    intro hn pVar hmem hd w hw
    rw [rebuild_eq, copyParams_new_entries _ _ hn]
    exact List.mem_map.2 ⟨(pVar.GetName, w), mem_entries_of_param _ _ _ hmem hd hw, rfl⟩
  refine ⟨?_, hconv, ?_, ?_, ?_⟩
  · intro hn pVar hmem hd hkind
    obtain ⟨name, value⟩ := pVar
    rcases hkind with ⟨v, hv⟩ | ⟨v, hv⟩ | ⟨v, hv⟩
    · simp only at hv; subst hv
      exact hconv hn ⟨name, .float v⟩ hmem hd (.float v) rfl
    · simp only at hv; subst hv
      exact hconv hn ⟨name, .int v⟩ hmem hd (.int v) rfl
    · simp only at hv; subst hv
      exact hconv hn ⟨name, .string v⟩ hmem hd (.string v) rfl
  · intro hn pVar hmem hnone value hin
    rw [rebuild_eq, copyParams_new_entries _ _ hn] at hin
    obtain ⟨e, he, heq⟩ := List.mem_map.1 hin
    simp only [Option.some.injEq, IMaterialVar.mk.injEq] at heq
    have : (pVar.GetName, e.2) ∈ m.params.filterMap paramEntry := by
      rw [← heq.1]; exact he
    exact not_mem_entries_of_param _ hn pVar hmem hnone _ this
  · rw [rebuild_eq]
  · rw [rebuild_eq rt ms m s, rebuild_eq]
    simp only [copyParams_idem]

/-- Claim C10 fails as stated: the material `mixedKinds`, rebuilt with the shader name
it already has, keeps its float but holds a string where it held the vector `$color`
and no longer has the parameter `$unused` of undefined kind, neither of them
denylisted; and of two parameters of the same name in `twoAlphas` only the value of
the second is left. -/
theorem C10_counterexample :
    some (⟨"$color", .vector one one one⟩ : IMaterialVar) ∈ mixedKinds.params ∧
    some (⟨"$unused", .undefined⟩ : IMaterialVar) ∈ mixedKinds.params ∧
    ShouldSkipParameter "$color" = false ∧ ShouldSkipParameter "$unused" = false ∧
    (rebuild_with_new_shader c99 threeMaterials mixedKinds mixedKinds.shader).params =
      [some ⟨"$color", .string "[1.000000 1.000000 1.000000]"⟩,
       some ⟨"$alpha", .float half⟩] ∧
    (rebuild_with_new_shader c99 threeMaterials twoAlphas twoAlphas.shader).params =
      [some ⟨"$alpha", .float one⟩] := by
  decide

/-- The material `brick` has distinct parameter names; rebuilt with its own shader name
it keeps its float `$alpha`, and rebuilding it a second time changes nothing. -/
theorem C10_witness :
    some (⟨"$alpha", .float half⟩ : IMaterialVar) ∈
        (rebuild_with_new_shader c99 threeMaterials brick brick.shader).params ∧
    rebuild_with_new_shader c99 threeMaterials
        (rebuild_with_new_shader c99 threeMaterials brick brick.shader) brick.shader =
      rebuild_with_new_shader c99 threeMaterials brick brick.shader :=
  ⟨(C10_rebuild_keeps_scalars c99 threeMaterials brick brick.shader).1 (by decide)
      ⟨"$alpha", .float half⟩ (by simp [brick]) (by decide) (Or.inl ⟨half, rfl⟩),
    (C10_rebuild_keeps_scalars c99 threeMaterials brick brick.shader).2.2.2.2⟩

/-! ### Concrete runs for claims C1 and C6 -/

/-- The material `brick` has the parameters `$flags` and `$envmap`; the descriptor built
for `brick:SetShaderName("VertexLitGeneric")` has an entry under neither. -/
theorem C1_witness :
    some (⟨"$flags", .int 2048⟩ : IMaterialVar) ∈ brick.params ∧
    some (⟨"$envmap", .texture (some ⟨"env_cubemap"⟩)⟩ : IMaterialVar) ∈ brick.params ∧
    ∃ kv, Material_SetShaderName c99 (some threeMaterials)
        [.material (some brick), .string "VertexLitGeneric"] =
        ⟨[.SetShaderAndParams brick kv, .Refresh brick], .returned []⟩ ∧
      ∀ w, ("$flags", w) ∉ kv.entries ∧ ("$envmap", w) ∉ kv.entries := by
  obtain ⟨kv, hkv, hno⟩ := C1_denylist_omitted.2 c99 threeMaterials brick "VertexLitGeneric" []
  refine ⟨by decide, by decide, kv, hkv, fun w => ⟨fun h => ?_, fun h => ?_⟩⟩
  · exact (hno _ _ h).2 (by decide)
  · exact (hno _ _ h).2 (by decide)

/-- A Material userdata that holds a null pointer: `Material_SetShaderName` raises an
error and makes no engine call. -/
theorem C6_witness :
    (Material_SetShaderName c99 (some threeMaterials)
        [.material none, .string "UnlitGeneric"]).calls = [] ∧
    ∃ e, (Material_SetShaderName c99 (some threeMaterials)
        [.material none, .string "UnlitGeneric"]).result = .raised e :=
  C6_validation_before_mutation.2.1 c99 (some threeMaterials)
    [.material none, .string "UnlitGeneric"] (Or.inr (Or.inr rfl))

end SetShaders
